import Mathlib

/-!
Verification of the Market-Bot real-time synchronization subsystem.

Shallow embedding of:
- `src/bot/src/modules/real-time/WebSocketManager.ts` (subscriber-side
  connection manager `WebSocketManager` and cache owner `ProductManager`),
- `src/dashboard/lib/websocket-server.ts` (hub-side broadcast),
- `src/shared/schemas/change-streams.ts` (change-feed `$match` pipeline).

Dates are modelled as natural numbers (epoch milliseconds); JavaScript `Map`
is modelled as an association list with get/set helpers; the Discord-side
presentation effect `channelManager.updateProductEmbed(p)` is modelled as an
append to an `embeds` log.
-/

set_option maxHeartbeats 1000000

namespace MarketBot

/-- Product snapshot: the fields of `IProduct` (shared/schemas/product.ts)
used by the synchronization paths. `lastUpdated` is the entity's own
last-modified timestamp in epoch milliseconds. -/
structure IProduct where
  productId : String
  name : String
  price : Nat
  stock : Nat
  isActive : Bool
  lastUpdated : Nat
deriving DecidableEq, Repr

/-- One entry of `ProductManager.productCache`:
`Map<string, { product: IProduct; lastUpdated: Date }>`. -/
structure CacheEntry where
  product : IProduct
  lastUpdated : Nat
deriving DecidableEq, Repr

/-- The `productCache` map, as an association list keyed by `productId`. -/
abbrev ProductCache := List (String × CacheEntry)

/-- `productCache.get(k)`. -/
def cacheGet (c : ProductCache) (k : String) : Option CacheEntry :=
  (c.find? (fun q => q.1 == k)).map (fun q => q.2)

/-- `productCache.set(k, v)`: the new binding shadows any previous one. -/
def cacheSet (c : ProductCache) (k : String) (v : CacheEntry) : ProductCache :=
  (k, v) :: c.filter (fun q => q.1 != k)

/-- State owned by a `ProductManager` instance, together with the log of
`channelManager.updateProductEmbed` invocations (the presentation side
effect shared by both delivery paths). -/
structure PMState where
  productCache : ProductCache
  embeds : List IProduct
  lastPollTime : Nat
deriving DecidableEq, Repr

/-- The update condition of `ProductManager.processProductUpdates`
(WebSocketManager.ts line 399): `!cached || productLastUpdated > cached.lastUpdated`. -/
def shouldApply (c : ProductCache) (p : IProduct) : Bool :=
  match cacheGet c p.productId with
  | none => true
  | some cached => cached.lastUpdated < p.lastUpdated

/-- One iteration of the `for` loop in `ProductManager.processProductUpdates`
(lines 394-413): if the product is new or strictly newer than the cached
version, update the Discord embed and overwrite the cache entry; otherwise
do nothing. -/
def applyPollItem (s : PMState) (p : IProduct) : PMState :=
  if shouldApply s.productCache p then
    { s with
      productCache := cacheSet s.productCache p.productId ⟨p, p.lastUpdated⟩
      embeds := s.embeds ++ [p] }
  else s

/-- `ProductManager.processProductUpdates(products)` (lines 391-418):
sequentially applies every item of a poll response. -/
def processProductUpdates (s : PMState) (products : List IProduct) : PMState :=
  products.foldl applyPollItem s

/-- `ProductManager.pollForUpdates` (lines 361-389): rate-limited to one poll
per 5000 ms; a successful response (`result.success`) is processed by
`processProductUpdates`, a failed response is a no-op for the cycle. -/
def pollForUpdates (now : Nat) (s : PMState) (resp : Option (List IProduct)) : PMState :=
  if now - s.lastPollTime < 5000 then s
  else
    let s1 := { s with lastPollTime := now }
    match resp with
    | some products => processProductUpdates s1 products
    | none => s1

/-- `WebSocketManager.handleProductUpdate(productData, operation)`
(WebSocketManager.ts lines 94-113), the push-path handler: on `insert` or
`update` it calls `channelManager.updateProductEmbed(productData)`
directly — it does not consult or modify `productCache`; on `delete` and on
unknown operations it only logs. -/
def handleProductUpdate (s : PMState) (productData : IProduct) (operation : String) :
    PMState :=
  if operation == "insert" || operation == "update" then
    { s with embeds := s.embeds ++ [productData] }
  else s

/-- Spec-side apply function, stated from the spec's words (§4.4
`applyEvent` for `Created`/`Updated`): look up the cache entry by id, apply
the snapshot only when it is strictly newer than the cached version or no
entry exists, and trigger the presentation side effect exactly when the
cache changes. Declared for comparison with the source-derived paths. -/
def applyEventSpec (s : PMState) (p : IProduct) : PMState :=
  match cacheGet s.productCache p.productId with
  | none =>
      { s with
        productCache := cacheSet s.productCache p.productId ⟨p, p.lastUpdated⟩
        embeds := s.embeds ++ [p] }
  | some cached =>
      if cached.lastUpdated < p.lastUpdated then
        { s with
          productCache := cacheSet s.productCache p.productId ⟨p, p.lastUpdated⟩
          embeds := s.embeds ++ [p] }
      else s

/-- The cached version (the stored `lastUpdated` timestamp) of an entity. -/
def cacheVersion (c : ProductCache) (k : String) : Option Nat :=
  (cacheGet c k).map (fun e => e.lastUpdated)

/-- Order on optional versions: a missing entry is below everything. -/
def verLe : Option Nat → Option Nat → Bool
  | none, _ => true
  | some _, none => false
  | some a, some b => a ≤ b

/-! Subscriber-side connection manager (`WebSocketManager`, bot side). -/

/-- The `ws` readyState values of the underlying socket. -/
inductive ReadyState
  | connecting
  | rsOpen
  | closing
  | closedSt
deriving DecidableEq, Repr

/-- Outbound protocol messages sent by the subscriber. -/
inductive Msg
  | subscribeProducts
  | ping
deriving DecidableEq, Repr

/-- Connection-manager state: the fields of the bot-side `WebSocketManager`
that the reconnect/backoff/fallback logic reads or writes, plus a log of
transmitted messages. `ws = none` models `this.ws === null`. -/
structure WSState where
  isConnected : Bool
  reconnectAttempts : Nat
  fallbackPolling : Bool
  ws : Option ReadyState
  outbox : List Msg
deriving DecidableEq, Repr

/-- `maxReconnectAttempts` (WebSocketManager.ts line 19). -/
def maxReconnectAttempts : Nat := 5

/-- `reconnectDelay` in milliseconds (line 20). -/
def reconnectDelay : Nat := 5000

/-- `WebSocketManager.send(message)` (lines 184-188): transmit iff
`isConnected && ws && ws.readyState === WebSocket.OPEN`; otherwise the
message is dropped with no error and no queueing. -/
def send (s : WSState) (m : Msg) : WSState :=
  match s.ws with
  | some r =>
      if s.isConnected && r == ReadyState.rsOpen then
        { s with outbox := s.outbox ++ [m] }
      else s
  | none => s

/-- The `open` event handler installed by `connect()` (lines 39-52): set the
connected flag, reset the retry counter, stop fallback polling, and send
`SUBSCRIBE_PRODUCTS` through `send`. The event fires only on a socket whose
readyState is OPEN. -/
def onOpen (s : WSState) : WSState :=
  send
    { s with
      isConnected := true
      reconnectAttempts := 0
      fallbackPolling := false
      ws := some ReadyState.rsOpen }
    Msg.subscribeProducts

/-- `WebSocketManager.handleDisconnection()` (lines 115-137). Returns the new
state together with the delay of the reconnect scheduled by `setTimeout`
(`none` when no reconnect is scheduled). `startFallbackPolling` is
idempotent, so activating it is modelled as setting the flag. -/
def handleDisconnection (s : WSState) : WSState × Option Nat :=
  let s0 := { s with isConnected := false }
  if s0.reconnectAttempts < maxReconnectAttempts then
    let attempts := s0.reconnectAttempts + 1
    let s1 := { s0 with reconnectAttempts := attempts }
    let s2 := if attempts == 1 then { s1 with fallbackPolling := true } else s1
    (s2, some (reconnectDelay * attempts))
  else
    ({ s0 with fallbackPolling := true }, none)

/-- A freshly connected manager: connected, zero failed attempts, no
fallback polling, socket open, nothing sent yet. -/
def initState : WSState :=
  { isConnected := true
    reconnectAttempts := 0
    fallbackPolling := false
    ws := some ReadyState.rsOpen
    outbox := [] }

/-- State after n consecutive disconnections starting from `initState`. -/
def failState : Nat → WSState
  | 0 => initState
  | n + 1 => (handleDisconnection (failState n)).1

/-! Hub-side broadcast (`src/dashboard/lib/websocket-server.ts`). -/

/-- A registered hub connection (`CustomWebSocket`): `sendOk = false` models
a transport whose `send` reports a failure. In the `ws` library a `send` on
an OPEN socket never throws synchronously: a transport failure surfaces as
an `error` event on that socket, which the hub's `error` handler
(websocket-server.ts lines 52-55) answers by `clients.delete(ws)`. -/
structure CustomWebSocket where
  id : Nat
  readyState : ReadyState
  sendOk : Bool
deriving DecidableEq, Repr

/-- `WebSocketManager.broadcast(message)` (lines 87-98): the message is
serialized once and `client.send` is attempted for every registered client
whose `readyState` is OPEN, sequentially and unconditionally — the outcome
of one send does not affect the attempts on the others. Returns the list of
(client, send succeeded) outcomes in iteration order. -/
def broadcast : List CustomWebSocket → List (CustomWebSocket × Bool)
  | [] => []
  | c :: rest =>
      if c.readyState == ReadyState.rsOpen then (c, c.sendOk) :: broadcast rest
      else broadcast rest

/-- The hub's reaction to the `error` events raised by failed sends: each
failed client is removed from the connection set (`clients.delete(ws)`),
in order. -/
def evictFailed : List CustomWebSocket → List (CustomWebSocket × Bool) → List CustomWebSocket
  | cs, [] => cs
  | cs, (c, ok) :: rest =>
      evictFailed (if ok then cs else cs.filter (fun x => x != c)) rest

/-! Change Feed Watcher (`src/shared/schemas/change-streams.ts`). -/

/-- A change-stream notification as matched by the aggregation pipeline:
its `operationType` and the names of the fields in
`updateDescription.updatedFields`. -/
structure ChangeNotification where
  operationType : String
  updatedFields : List String
deriving DecidableEq, Repr

/-- The field list of the pipeline's `$in` clause (change-streams.ts
line 23): `['stock', 'price', 'isActive', 'lastUpdated']`. -/
def presentationRelevantFields : List String :=
  ["stock", "price", "isActive", "lastUpdated"]

/-- The `$match` stage of the product change stream (change-streams.ts
lines 15-28): an `$or` of `operationType` being `insert`, `update` or
`delete`, or some updated field being in the presentation-relevant list.
A matched notification is broadcast unconditionally by the `change`
handler. -/
def productChangeMatch (c : ChangeNotification) : Bool :=
  c.operationType == "insert" || c.operationType == "update" ||
    c.operationType == "delete" ||
    c.updatedFields.any (fun f => presentationRelevantFields.contains f)

/-! Concrete fixtures used by counterexamples and witnesses. -/

/-- A sample product snapshot at version 100. -/
def p1 : IProduct :=
  { productId := "p1", name := "Widget", price := 10, stock := 5
    isActive := true, lastUpdated := 100 }

/-- A second sample product with a distinct id, at version 200. -/
def p2 : IProduct :=
  { productId := "p2", name := "Gadget", price := 20, stock := 3
    isActive := true, lastUpdated := 200 }

/-- Cache entry for `p1` at its own version. -/
def entry1 : CacheEntry := { product := p1, lastUpdated := 100 }

/-- An empty subscriber state. -/
def s0 : PMState := { productCache := [], embeds := [], lastPollTime := 0 }

/-- A subscriber state whose cache holds `p1`. -/
def s1 : PMState := { productCache := [("p1", entry1)], embeds := [], lastPollTime := 0 }

/-- An open hub connection with a working transport. -/
def wsA : CustomWebSocket := { id := 1, readyState := ReadyState.rsOpen, sendOk := true }

/-- An open hub connection whose transport is broken. -/
def wsB : CustomWebSocket := { id := 2, readyState := ReadyState.rsOpen, sendOk := false }

/-- A second open hub connection with a working transport. -/
def wsC : CustomWebSocket := { id := 3, readyState := ReadyState.rsOpen, sendOk := true }

/-- A hub connection set of three clients, one of them broken. -/
def hubClients : List CustomWebSocket := [wsA, wsB, wsC]

/-- An update notification touching only an internal bookkeeping field. -/
def bookkeepingUpdate : ChangeNotification :=
  { operationType := "update", updatedFields := ["description"] }

/-! Helper lemmas. -/

theorem verLe_refl (v : Option Nat) : verLe v v = true := by
  cases v <;> simp [verLe]

theorem verLe_trans {a b c : Option Nat} (h1 : verLe a b = true) (h2 : verLe b c = true) :
    verLe a c = true := by
  cases a <;> cases b <;> cases c <;> simp_all [verLe]
  omega

theorem cacheGet_cacheSet_same (c : ProductCache) (k : String) (v : CacheEntry) :
    cacheGet (cacheSet c k v) k = some v := by
  simp [cacheGet, cacheSet, List.find?]

theorem find?_filter_ne (c : ProductCache) (k k' : String) (h : k' ≠ k) :
    (c.filter (fun q => q.1 != k)).find? (fun q => q.1 == k') =
      c.find? (fun q => q.1 == k') := by
  induction c with
  | nil => rfl
  | cons a rest ih =>
      by_cases ha : a.1 = k'
      · have hak : (a.1 != k) = true := by simp [ha, h]
        have hkk : (k' != k) = true := by simp [h]
        simp [List.filter, hak, hkk, List.find?, ha]
      · have ha' : (a.1 == k') = false := by simp [ha]
        by_cases hk : a.1 = k
        · have : (a.1 != k) = false := by simp [hk]
          simp [List.filter, this, List.find?, ha', ih]
        · have : (a.1 != k) = true := by simp [hk]
          simp [List.filter, this, List.find?, ha', ih]

theorem cacheGet_cacheSet_other (c : ProductCache) (k k' : String) (v : CacheEntry)
    (h : k' ≠ k) : cacheGet (cacheSet c k v) k' = cacheGet c k' := by
  have hne : (k == k') = false := by
    simp [beq_eq_false_iff_ne]
    exact fun e => h e.symm
  simp [cacheGet, cacheSet, List.find?, hne, find?_filter_ne c k k' h]

theorem applyPollItem_of_not_shouldApply {s : PMState} {p : IProduct}
    (h : shouldApply s.productCache p = false) : applyPollItem s p = s := by
  simp [applyPollItem, h]

theorem cacheGet_applyPollItem_other (s : PMState) (p : IProduct) (e : String)
    (h : e ≠ p.productId) :
    cacheGet (applyPollItem s p).productCache e = cacheGet s.productCache e := by
  unfold applyPollItem
  by_cases hs : shouldApply s.productCache p
  · simp [hs, cacheGet_cacheSet_other _ _ _ _ h]
  · simp [hs]

theorem cacheGet_applyPollItem_same (s : PMState) (p : IProduct) :
    cacheGet (applyPollItem s p).productCache p.productId =
      (if shouldApply s.productCache p then some ⟨p, p.lastUpdated⟩
       else cacheGet s.productCache p.productId) := by
  unfold applyPollItem
  by_cases hs : shouldApply s.productCache p
  · simp [hs, cacheGet_cacheSet_same]
  · simp [hs]

theorem shouldApply_congr {c c' : ProductCache} {p : IProduct}
    (h : cacheGet c p.productId = cacheGet c' p.productId) :
    shouldApply c p = shouldApply c' p := by
  unfold shouldApply
  rw [h]

theorem version_mono_step (s : PMState) (p : IProduct) (e : String) :
    verLe (cacheVersion s.productCache e)
      (cacheVersion (applyPollItem s p).productCache e) = true := by
  by_cases he : e = p.productId
  · subst he
    rw [cacheVersion, cacheVersion, cacheGet_applyPollItem_same]
    by_cases hs : shouldApply s.productCache p
    · rw [if_pos hs]
      unfold shouldApply at hs
      cases hget : cacheGet s.productCache p.productId with
      | none => simp [verLe]
      | some cached =>
          rw [hget] at hs
          simp only [decide_eq_true_eq] at hs
          simp [verLe, Option.map]
          omega
    · rw [if_neg hs]
      exact verLe_refl _
  · rw [cacheVersion, cacheVersion, cacheGet_applyPollItem_other s p e he]
    exact verLe_refl _

theorem version_mono_fold (s : PMState) (ps : List IProduct) (e : String) :
    verLe (cacheVersion s.productCache e)
      (cacheVersion (processProductUpdates s ps).productCache e) = true := by
  induction ps generalizing s with
  | nil => exact verLe_refl _
  | cons p rest ih =>
      exact verLe_trans (version_mono_step s p e) (ih (applyPollItem s p))

theorem applyPollItem_noop_of_stale {s : PMState} {p : IProduct} {cached : CacheEntry}
    (hget : cacheGet s.productCache p.productId = some cached)
    (hle : p.lastUpdated ≤ cached.lastUpdated) : applyPollItem s p = s := by
  apply applyPollItem_of_not_shouldApply
  unfold shouldApply
  rw [hget]
  simp
  omega

theorem applyPollItem_changes_iff (s : PMState) (p : IProduct) :
    (applyPollItem s p).productCache ≠ s.productCache ↔
      (cacheGet s.productCache p.productId = none ∨
       ∃ cached, cacheGet s.productCache p.productId = some cached ∧
         cached.lastUpdated < p.lastUpdated) := by
  constructor
  · intro hne
    by_cases hs : shouldApply s.productCache p
    · unfold shouldApply at hs
      cases hget : cacheGet s.productCache p.productId with
      | none => exact Or.inl rfl
      | some cached =>
          rw [hget] at hs
          simp only [decide_eq_true_eq] at hs
          exact Or.inr ⟨cached, rfl, hs⟩
    · exact absurd (congrArg PMState.productCache
        (applyPollItem_of_not_shouldApply (by simpa using hs))) hne
  · intro hcond heq
    have hkey := congrArg (fun c => cacheGet c p.productId) heq
    simp only at hkey
    rw [cacheGet_applyPollItem_same] at hkey
    have hs : shouldApply s.productCache p = true := by
      unfold shouldApply
      rcases hcond with hnone | ⟨cached, hget, hlt⟩
      · rw [hnone]
      · rw [hget]
        simpa using hlt
    rw [if_pos hs] at hkey
    rcases hcond with hnone | ⟨cached, hget, hlt⟩
    · rw [hnone] at hkey
      exact Option.noConfusion hkey
    · rw [hget] at hkey
      have : cached.lastUpdated = p.lastUpdated := by
        have := Option.some.inj hkey
        rw [← this]
      omega

theorem applyPollItem_idem (s : PMState) (p : IProduct) :
    applyPollItem (applyPollItem s p) p = applyPollItem s p := by
  apply applyPollItem_of_not_shouldApply
  rw [shouldApply, cacheGet_applyPollItem_same]
  by_cases hs : shouldApply s.productCache p
  · simp [hs]
  · rw [if_neg hs]
    unfold shouldApply at hs
    cases hget : cacheGet s.productCache p.productId with
    | none => rw [hget] at hs; simp at hs
    | some cached =>
        rw [hget] at hs
        simp only [decide_eq_true_eq] at hs
        simp
        omega

theorem processProductUpdates_cacheGet_not_mem (s : PMState) (ps : List IProduct)
    (e : String) (h : e ∉ ps.map (fun p => p.productId)) :
    cacheGet (processProductUpdates s ps).productCache e = cacheGet s.productCache e := by
  induction ps generalizing s with
  | nil => rfl
  | cons p rest ih =>
      simp only [List.map_cons, List.mem_cons, not_or] at h
      calc cacheGet (processProductUpdates (applyPollItem s p) rest).productCache e
          = cacheGet (applyPollItem s p).productCache e := ih (applyPollItem s p) h.2
        _ = cacheGet s.productCache e := cacheGet_applyPollItem_other s p e h.1

theorem processProductUpdates_cacheGet_mem (s : PMState) (ps : List IProduct)
    (p : IProduct) (hd : ps.Pairwise (fun a b => a.productId ≠ b.productId))
    (hp : p ∈ ps) :
    cacheGet (processProductUpdates s ps).productCache p.productId =
      (if shouldApply s.productCache p then some ⟨p, p.lastUpdated⟩
       else cacheGet s.productCache p.productId) := by
  induction ps generalizing s with
  | nil => exact absurd hp (List.not_mem_nil p)
  | cons q rest ih =>
      rw [List.pairwise_cons] at hd
      rcases List.mem_cons.mp hp with hpq | hprest
      · subst hpq
        have hnot : p.productId ∉ rest.map (fun r => r.productId) := by
          intro hmem
          rcases List.mem_map.mp hmem with ⟨r, hr, hid⟩
          exact hd.1 r hr hid.symm
        calc cacheGet (processProductUpdates (applyPollItem s p) rest).productCache p.productId
            = cacheGet (applyPollItem s p).productCache p.productId :=
              processProductUpdates_cacheGet_not_mem _ _ _ hnot
          _ = _ := cacheGet_applyPollItem_same s p
      · have hne : p.productId ≠ q.productId := fun h => hd.1 p hprest h.symm
        have hget : cacheGet (applyPollItem s q).productCache p.productId =
            cacheGet s.productCache p.productId :=
          cacheGet_applyPollItem_other s q p.productId hne
        rw [show processProductUpdates s (q :: rest) =
              processProductUpdates (applyPollItem s q) rest from rfl,
            ih (applyPollItem s q) hd.2 hprest, shouldApply_congr hget, hget]

theorem shouldApply_false_elim {c : ProductCache} {p : IProduct}
    (h : shouldApply c p = false) :
    ∃ cached, cacheGet c p.productId = some cached ∧
      p.lastUpdated ≤ cached.lastUpdated := by
  unfold shouldApply at h
  cases hget : cacheGet c p.productId with
  | none => rw [hget] at h; exact absurd h (by simp)
  | some cached =>
      rw [hget] at h
      simp only [decide_eq_false_iff_not, not_lt] at h
      exact ⟨cached, rfl, h⟩

theorem handleDisconnection_fst_attempts (s : WSState) :
    (handleDisconnection s).1.reconnectAttempts =
      (if s.reconnectAttempts < maxReconnectAttempts then s.reconnectAttempts + 1
       else s.reconnectAttempts) := by
  by_cases h : s.reconnectAttempts < maxReconnectAttempts
  · simp only [handleDisconnection, h, if_true]
    split <;> rfl
  · simp [handleDisconnection, h]

theorem failState_attempts (n : Nat) (hn : n ≤ maxReconnectAttempts) :
    (failState n).reconnectAttempts = n := by
  induction n with
  | zero => rfl
  | succ k ih =>
      have hk : k ≤ maxReconnectAttempts := Nat.le_of_succ_le hn
      have hklt : k < maxReconnectAttempts := Nat.lt_of_succ_le hn
      rw [failState, handleDisconnection_fst_attempts, ih hk, if_pos (ih hk ▸ hklt)]

theorem onOpen_fields (s : WSState) :
    (onOpen s).isConnected = true ∧ (onOpen s).reconnectAttempts = 0 ∧
      (onOpen s).fallbackPolling = false ∧
      (onOpen s).outbox = s.outbox ++ [Msg.subscribeProducts] := by
  simp [onOpen, send]

theorem handleDisconnection_fallback (s : WSState)
    (hinv : s.reconnectAttempts = 0 ∨ s.fallbackPolling = true) :
    (handleDisconnection s).1.fallbackPolling = true := by
  by_cases h : s.reconnectAttempts < maxReconnectAttempts
  · simp only [handleDisconnection, h, if_true]
    rcases hinv with h0 | hfb
    · split
      · rfl
      · next hne => exact absurd (by simp [h0]) hne
    · split <;> simp [hfb]
  · simp [handleDisconnection, h]

theorem handleDisconnection_snd (s : WSState)
    (h : s.reconnectAttempts < maxReconnectAttempts) :
    (handleDisconnection s).2 = some (reconnectDelay * (s.reconnectAttempts + 1)) := by
  simp only [handleDisconnection, h, if_true]

theorem mem_broadcast {clients : List CustomWebSocket} {c : CustomWebSocket}
    (hmem : c ∈ clients) (hopen : c.readyState = ReadyState.rsOpen) :
    (c, c.sendOk) ∈ broadcast clients := by
  induction clients with
  | nil => exact absurd hmem (List.not_mem_nil c)
  | cons a rest ih =>
      rcases List.mem_cons.mp hmem with hca | hcr
      · subst hca
        simp [broadcast, hopen]
      · unfold broadcast
        split
        · exact List.mem_cons_of_mem _ (ih hcr)
        · exact ih hcr

theorem broadcast_outcome {clients : List CustomWebSocket}
    {r : CustomWebSocket × Bool} (hr : r ∈ broadcast clients) :
    r.2 = r.1.sendOk ∧ r.1 ∈ clients ∧ r.1.readyState = ReadyState.rsOpen := by
  induction clients with
  | nil => exact absurd hr (List.not_mem_nil r)
  | cons a rest ih =>
      unfold broadcast at hr
      by_cases ha : a.readyState == ReadyState.rsOpen
      · rw [if_pos ha] at hr
        rcases List.mem_cons.mp hr with hra | hrr
        · subst hra
          exact ⟨rfl, List.mem_cons_self a rest, by simpa using ha⟩
        · rcases ih hrr with ⟨h1, h2, h3⟩
          exact ⟨h1, List.mem_cons_of_mem a h2, h3⟩
      · rw [if_neg ha] at hr
        rcases ih hr with ⟨h1, h2, h3⟩
        exact ⟨h1, List.mem_cons_of_mem a h2, h3⟩

theorem evictFailed_not_mem_of_not_mem {results : List (CustomWebSocket × Bool)}
    {cs : List CustomWebSocket} {c : CustomWebSocket} (h : c ∉ cs) :
    c ∉ evictFailed cs results := by
  induction results generalizing cs with
  | nil => exact h
  | cons r rest ih =>
      obtain ⟨rc, rok⟩ := r
      unfold evictFailed
      apply ih
      split
      · exact h
      · intro hmem
        exact h (List.mem_of_mem_filter hmem)

theorem evictFailed_not_mem {results : List (CustomWebSocket × Bool)}
    {cs : List CustomWebSocket} {c : CustomWebSocket}
    (h : (c, false) ∈ results) : c ∉ evictFailed cs results := by
  induction results generalizing cs with
  | nil => exact absurd h (List.not_mem_nil _)
  | cons r rest ih =>
      obtain ⟨rc, rok⟩ := r
      rcases List.mem_cons.mp h with hrc | hrest
      · have hc1 : rc = c := (Prod.mk.injEq rc rok c false ▸ hrc.symm).1.symm ▸ rfl
        have hc2 : rok = false := (Prod.mk.injEq rc rok c false ▸ hrc.symm).2
        subst hc1; subst hc2
        unfold evictFailed
        simp only [if_neg (by simp : ¬(false = true))]
        apply evictFailed_not_mem_of_not_mem
        intro hmem
        have := List.mem_filter.mp hmem
        simp at this
      · unfold evictFailed
        exact ih hrest

theorem evictFailed_mem_of_sendOk {results : List (CustomWebSocket × Bool)}
    {cs : List CustomWebSocket} {c : CustomWebSocket}
    (hmem : c ∈ cs) (hok : c.sendOk = true)
    (hres : ∀ r ∈ results, r.2 = r.1.sendOk) :
    c ∈ evictFailed cs results := by
  induction results generalizing cs with
  | nil => exact hmem
  | cons r rest ih =>
      obtain ⟨rc, rok⟩ := r
      unfold evictFailed
      apply ih
      · split
        · exact hmem
        · next hfail =>
            apply List.mem_filter.mpr
            refine ⟨hmem, ?_⟩
            have hrc : rok = rc.sendOk := hres (rc, rok) (List.mem_cons_self _ _)
            simp only [Bool.not_eq_true] at hfail
            have hrcf : rc.sendOk = false := hrc ▸ hfail
            simp only [bne_iff_ne, ne_eq]
            intro hce
            rw [hce] at hok
            rw [hok] at hrcf
            exact Bool.noConfusion hrcf
      · exact fun r hr => hres r (List.mem_cons_of_mem _ hr)

theorem send_not_transmit {s : WSState} {m : Msg}
    (hn : ¬ (s.isConnected = true ∧ s.ws = some ReadyState.rsOpen)) : send s m = s := by
  unfold send
  cases hws : s.ws with
  | none => rfl
  | some r =>
      have hcond : (s.isConnected && r == ReadyState.rsOpen) = false := by
        by_cases hc : s.isConnected
        · by_cases hr : r = ReadyState.rsOpen
          · exact absurd ⟨hc, by rw [hws, hr]⟩ hn
          · simp [hr]
        · simp [Bool.eq_false_iff.mpr hc]
      simp [hcond]

/-! Claim theorems. -/

/-- C1 counterexample: the claim that push and poll go through the same
apply function with identical merge semantics is false. Starting from an
empty cache, delivering the snapshot `p1` as a push `update` leaves the
cache empty, while delivering the same snapshot through a poll cycle
inserts it: the resulting cache state depends on the delivery path. -/
theorem C1_counterexample :
    (handleProductUpdate s0 p1 "update").productCache ≠
      (applyPollItem s0 p1).productCache := by
  decide

/-- C1 (amended): only the poll path applies snapshots through the
version-gated apply function — it coincides with the spec's `applyEvent` —
while the push-path handler bypasses the cache entirely: it never modifies
`productCache`, and it triggers the presentation side effect
unconditionally on every `insert`/`update`, so the cache state after a
snapshot depends on which delivery path carried it. -/
theorem C1_amended_apply_paths :
    (∀ (s : PMState) (p : IProduct), applyPollItem s p = applyEventSpec s p)
  ∧ (∀ (s : PMState) (p : IProduct) (op : String),
      (handleProductUpdate s p op).productCache = s.productCache)
  ∧ (∀ (s : PMState) (p : IProduct),
      (handleProductUpdate s p "update").embeds = s.embeds ++ [p]
      ∧ (handleProductUpdate s p "insert").embeds = s.embeds ++ [p]) := by
  refine ⟨fun s p => ?_, fun s p op => ?_, fun s p => ⟨?_, ?_⟩⟩
  · cases hget : cacheGet s.productCache p.productId with
    | none => simp [applyPollItem, applyEventSpec, shouldApply, hget]
    | some cached =>
        by_cases hlt : cached.lastUpdated < p.lastUpdated <;>
          simp [applyPollItem, applyEventSpec, shouldApply, hget, hlt]
  · unfold handleProductUpdate
    split <;> rfl
  · rfl
  · rfl

/-- C1 witness: the amended claim evaluated on a concrete state and
snapshot — the poll-path apply agrees with the spec-side apply there. -/
theorem C1_witness : applyPollItem s0 p1 = applyEventSpec s0 p1 :=
  C1_amended_apply_paths.1 s0 p1

/-- C2: for the apply function (the poll-path cache merge of
`processProductUpdates`), the cached version is non-decreasing over any
sequence of applies; an apply whose snapshot version is at most the cached
version is a no-op; a snapshot is applied (the cache changes) iff its
version is strictly greater than the cached version or no entry exists;
and applying the same snapshot twice equals applying it once. -/
theorem C2_staleness_monotonicity :
    (∀ (s : PMState) (ps : List IProduct) (e : String),
        verLe (cacheVersion s.productCache e)
          (cacheVersion (processProductUpdates s ps).productCache e) = true)
  ∧ (∀ (s : PMState) (p : IProduct) (cached : CacheEntry),
        cacheGet s.productCache p.productId = some cached →
        p.lastUpdated ≤ cached.lastUpdated → applyPollItem s p = s)
  ∧ (∀ (s : PMState) (p : IProduct),
        (applyPollItem s p).productCache ≠ s.productCache ↔
          (cacheGet s.productCache p.productId = none ∨
           ∃ cached, cacheGet s.productCache p.productId = some cached ∧
             cached.lastUpdated < p.lastUpdated))
  ∧ (∀ (s : PMState) (p : IProduct),
        applyPollItem (applyPollItem s p) p = applyPollItem s p) :=
  ⟨version_mono_fold,
   fun _ _ _ hget hle => applyPollItem_noop_of_stale hget hle,
   applyPollItem_changes_iff,
   applyPollItem_idem⟩

/-- C2 witness: the staleness rule evaluated concretely — a poll returning
`p1` again on a cache already at `p1`'s version is a no-op. -/
theorem C2_witness : applyPollItem s1 p1 = s1 :=
  C2_staleness_monotonicity.2.1 s1 p1 entry1 rfl (le_refl 100)

/-- C3 counterexample: applying a `delete` push event does not remove the
corresponding cache entry — with `p1` cached, the handler leaves the entry
in place (it only logs). -/
theorem C3_counterexample :
    cacheGet (handleProductUpdate s1 p1 "delete").productCache p1.productId =
      some entry1 := by
  decide

/-- C3 (amended): a `delete` push event is a complete no-op on the
subscriber — the handler neither removes the cache entry nor triggers any
presentation update; more generally the push handler never mutates the
cache for any operation, so there is no removal for a stale `Updated` to
contend with and re-adding happens only through the poll path. -/
theorem C3_amended_delete_noop :
    (∀ (s : PMState) (p : IProduct), handleProductUpdate s p "delete" = s)
  ∧ (∀ (s : PMState) (p : IProduct) (op : String),
      (handleProductUpdate s p op).productCache = s.productCache) := by
  constructor
  · intro s p
    rfl
  · intro s p op
    unfold handleProductUpdate
    split <;> rfl

/-- C3 witness: the amended claim evaluated concretely — deleting `p1` from
the state that caches it changes nothing. -/
theorem C3_witness : handleProductUpdate s1 p1 "delete" = s1 :=
  C3_amended_delete_noop.1 s1 p1

/-- C4 counterexample: after a completed poll whose final catalog is empty,
the entry for `p1` — an entity absent from the final catalog — is still in
the cache, so the cache does not equal the entity set implied by the final
catalog. (The poll at time 6000 passes the rate limiter and succeeds.) -/
theorem C4_counterexample :
    cacheGet (pollForUpdates 6000 s1 (some [])).productCache p1.productId =
      some entry1 := by
  decide

/-- C4 (amended): after a completed poll of the final catalog (with
pairwise-distinct product ids), entities absent from the catalog are never
removed — their entries persist unchanged — while every entity present in
the catalog ends with exactly the catalog snapshot if that snapshot is
strictly newer than what was cached, and with its previous entry otherwise;
in particular no cached version regresses below the catalog version. -/
theorem C4_amended_convergence (s : PMState) (ps : List IProduct)
    (hd : ps.Pairwise (fun a b => a.productId ≠ b.productId)) :
    (∀ e, e ∉ ps.map (fun p => p.productId) →
        cacheGet (processProductUpdates s ps).productCache e =
          cacheGet s.productCache e)
  ∧ (∀ p ∈ ps,
        cacheGet (processProductUpdates s ps).productCache p.productId =
          (if shouldApply s.productCache p then some ⟨p, p.lastUpdated⟩
           else cacheGet s.productCache p.productId))
  ∧ (∀ p ∈ ps, ∃ entry,
        cacheGet (processProductUpdates s ps).productCache p.productId =
          some entry ∧ p.lastUpdated ≤ entry.lastUpdated) := by
  refine ⟨fun e he => processProductUpdates_cacheGet_not_mem s ps e he,
    fun p hp => processProductUpdates_cacheGet_mem s ps p hd hp,
    fun p hp => ?_⟩
  rw [processProductUpdates_cacheGet_mem s ps p hd hp]
  by_cases hs : shouldApply s.productCache p
  · exact ⟨⟨p, p.lastUpdated⟩, by rw [if_pos hs], le_refl _⟩
  · obtain ⟨cached, hget, hle⟩ :=
      shouldApply_false_elim (Bool.eq_false_iff.mpr hs)
    exact ⟨cached, by rw [if_neg hs, hget], hle⟩

/-- C4 witness: the amended claim evaluated on a concrete poll — polling
the catalog `[p2]` over the cache that holds `p1` leaves a `p2` entry at
version at least 200. -/
theorem C4_witness :
    ∃ entry, cacheGet (processProductUpdates s1 [p2]).productCache p2.productId =
      some entry ∧ p2.lastUpdated ≤ entry.lastUpdated :=
  (C4_amended_convergence s1 [p2] (by simp)).2.2 p2 (by simp)

/-- C5 counterexample: fallback polling is not activated only on entry to
degraded polling after N failed attempts — it is already active after the
very first disconnection, while the attempt counter is 1 (below the maximum
of 5) and a reconnect is still scheduled. -/
theorem C5_counterexample :
    (handleDisconnection initState).1.fallbackPolling = true ∧
    (handleDisconnection initState).1.reconnectAttempts = 1 ∧
    1 < maxReconnectAttempts ∧
    (handleDisconnection initState).2 = some reconnectDelay := by
  decide

/-- C5 (amended): fallback polling is activated on the first disconnection
(not only after N consecutive failures), stays active across every further
disconnection, and is suspended exactly by a successful connection. -/
theorem C5_amended_fallback_lifecycle :
    (∀ s : WSState, s.reconnectAttempts = 0 →
        (handleDisconnection s).1.fallbackPolling = true)
  ∧ (∀ s : WSState, s.fallbackPolling = true →
        (handleDisconnection s).1.fallbackPolling = true)
  ∧ (∀ s : WSState, (onOpen s).fallbackPolling = false) :=
  ⟨fun s h0 => handleDisconnection_fallback s (Or.inl h0),
   fun s hfb => handleDisconnection_fallback s (Or.inr hfb),
   fun s => ((onOpen_fields s).2.2).1⟩

/-- C5 witness: the amended claim evaluated concretely — the first
disconnection from a fresh connection activates fallback polling, and a
successful reconnect suspends it. -/
theorem C5_witness :
    (handleDisconnection initState).1.fallbackPolling = true ∧
    (onOpen (handleDisconnection initState).1).fallbackPolling = false :=
  ⟨C5_amended_fallback_lifecycle.1 initState rfl,
   C5_amended_fallback_lifecycle.2.2 (handleDisconnection initState).1⟩

/-- C6 counterexample: once the maximum attempt count is exhausted (five
consecutive failures), a further disconnection schedules no reconnect at
all — `setTimeout` is never called in the exhausted branch — so the manager
does not keep attempting reconnection in the background. -/
theorem C6_counterexample :
    (failState maxReconnectAttempts).reconnectAttempts = maxReconnectAttempts ∧
    (handleDisconnection (failState maxReconnectAttempts)).2 = none := by
  decide

/-- C6 (amended): after the maximum attempt count is exhausted the manager
stops scheduling reconnects entirely (it stays in fallback polling, with no
background reconnection at any cadence); if a connection is nevertheless
opened later (e.g. by an external `connect()` call), push mode resumes and
`SUBSCRIBE_PRODUCTS` is re-sent to the hub. -/
theorem C6_amended_no_background_reconnect :
    (∀ s : WSState, ¬ s.reconnectAttempts < maxReconnectAttempts →
        (handleDisconnection s).2 = none ∧
        (handleDisconnection s).1.fallbackPolling = true)
  ∧ (∀ s : WSState, (onOpen s).isConnected = true ∧
        (onOpen s).outbox = s.outbox ++ [Msg.subscribeProducts]) := by
  constructor
  · intro s h
    constructor <;> simp [handleDisconnection, h]
  · intro s
    exact ⟨(onOpen_fields s).1, (onOpen_fields s).2.2.2⟩

/-- C6 witness: the amended claim evaluated concretely — after five
failures the sixth disconnection schedules nothing, and a later open
re-sends the subscription. -/
theorem C6_witness :
    ((handleDisconnection (failState maxReconnectAttempts)).2 = none ∧
      (handleDisconnection (failState maxReconnectAttempts)).1.fallbackPolling = true) ∧
    (onOpen (failState maxReconnectAttempts)).outbox =
      (failState maxReconnectAttempts).outbox ++ [Msg.subscribeProducts] :=
  ⟨C6_amended_no_background_reconnect.1 (failState maxReconnectAttempts) (by decide),
   (C6_amended_no_background_reconnect.2 (failState maxReconnectAttempts)).2⟩

/-- C7: after k consecutive failed connection attempts (for 1 ≤ k below the
maximum attempt count), the reconnect delay scheduled at the k-th failure —
the delay before attempt k+1 — is exactly k * reconnectDelay (linear
backoff), and a successful connection resets the attempt counter to 0. -/
theorem C7_linear_backoff :
    (∀ k : Nat, 1 ≤ k → k < maxReconnectAttempts →
        (handleDisconnection (failState (k - 1))).2 =
          some (reconnectDelay * k))
  ∧ (∀ s : WSState, (onOpen s).reconnectAttempts = 0) := by
  constructor
  · intro k h1 h2
    have hatt : (failState (k - 1)).reconnectAttempts = k - 1 :=
      failState_attempts _ (by omega)
    rw [handleDisconnection_snd _ (by omega), hatt, Nat.sub_add_cancel h1]
  · intro s
    exact (onOpen_fields s).2.1

/-- C7 witness: the backoff law evaluated at k = 2 — the delay scheduled at
the second failure is 2 * 5000 ms — together with the counter reset. -/
theorem C7_witness :
    (handleDisconnection (failState (2 - 1))).2 = some (reconnectDelay * 2) ∧
    (onOpen initState).reconnectAttempts = 0 :=
  ⟨C7_linear_backoff.1 2 (by decide) (by decide),
   C7_linear_backoff.2 initState⟩

/-- C8: hub fan-out isolation. Every registered open connection gets its
own send attempt whose outcome depends only on its own transport — so a
broken connection neither aborts the broadcast nor prevents delivery to any
other open connection — the connection whose send failed is evicted from
the connection set by the hub's error handling, and connections whose send
succeeded survive it. -/
theorem C8_fanout_isolation :
    (∀ (clients : List CustomWebSocket) (c : CustomWebSocket),
        c ∈ clients → c.readyState = ReadyState.rsOpen →
        (c, c.sendOk) ∈ broadcast clients)
  ∧ (∀ (clients : List CustomWebSocket) (c : CustomWebSocket),
        c ∈ clients → c.readyState = ReadyState.rsOpen → c.sendOk = false →
        c ∉ evictFailed clients (broadcast clients))
  ∧ (∀ (clients : List CustomWebSocket) (c : CustomWebSocket),
        c ∈ clients → c.sendOk = true →
        c ∈ evictFailed clients (broadcast clients)) := by
  refine ⟨fun clients c h1 h2 => mem_broadcast h1 h2,
    fun clients c h1 h2 h3 => ?_, fun clients c h1 h2 => ?_⟩
  · apply evictFailed_not_mem
    have hb := mem_broadcast h1 h2
    rwa [h3] at hb
  · exact evictFailed_mem_of_sendOk h1 h2 (fun r hr => (broadcast_outcome hr).1)

/-- C8 witness: a broadcast to three open connections, one of them broken —
the two working connections receive the message and survive eviction, the
broken one is evicted. -/
theorem C8_witness :
    (wsA, true) ∈ broadcast hubClients ∧
    (wsC, true) ∈ broadcast hubClients ∧
    wsB ∉ evictFailed hubClients (broadcast hubClients) ∧
    wsA ∈ evictFailed hubClients (broadcast hubClients) :=
  ⟨C8_fanout_isolation.1 hubClients wsA (by decide) rfl,
   C8_fanout_isolation.1 hubClients wsC (by decide) rfl,
   C8_fanout_isolation.2.1 hubClients wsB (by decide) rfl rfl,
   C8_fanout_isolation.2.2 hubClients wsA (by decide) rfl⟩

/-- C9 counterexample: an update notification touching only the internal
bookkeeping field `description` still passes the product change-stream
`$match` stage (it matches the unconditional `operationType: update`
clause), although it touches no presentation-relevant field — so
bookkeeping-only updates are not suppressed. -/
theorem C9_counterexample :
    productChangeMatch bookkeepingUpdate = true ∧
    bookkeepingUpdate.updatedFields.any
      (fun f => presentationRelevantFields.contains f) = false := by
  decide

/-- C9 (amended): a ChangeEvent is produced iff the notification is an
insert, update or delete, or touches a presentation-relevant field — the
field clause is redundant because the unconditional `update` clause already
matches every update, so updates touching only bookkeeping fields are not
suppressed. -/
theorem C9_amended_match_characterization (c : ChangeNotification) :
    productChangeMatch c = true ↔
      (c.operationType = "insert" ∨ c.operationType = "update" ∨
       c.operationType = "delete" ∨
       ∃ f ∈ c.updatedFields, f ∈ presentationRelevantFields) := by
  simp [productChangeMatch, List.any_eq_true, or_assoc]

/-- C9 witness: the amended characterization evaluated concretely — the
bookkeeping-only update is matched because its operation type is
`update`. -/
theorem C9_witness : productChangeMatch bookkeepingUpdate = true :=
  (C9_amended_match_characterization bookkeepingUpdate).mpr (Or.inr (Or.inl rfl))

/-- C10: the subscriber-side send transmits a message iff the connected
flag is set and the socket exists with readyState OPEN; in every other case
the state is unchanged — the message is silently discarded, never queued,
and no error is raised (the operation is total). -/
theorem C10_send_iff (s : WSState) (m : Msg) :
    ((send s m).outbox = s.outbox ++ [m] ↔
      (s.isConnected = true ∧ s.ws = some ReadyState.rsOpen))
    ∧ (¬ (s.isConnected = true ∧ s.ws = some ReadyState.rsOpen) →
        send s m = s) := by
  have hlen : s.outbox ++ [m] ≠ s.outbox := by
    intro h
    have := congrArg List.length h
    simp at this
  constructor
  · constructor
    · intro h
      by_contra hn
      rw [send_not_transmit hn] at h
      exact hlen h.symm
    · rintro ⟨h1, h2⟩
      simp [send, h2, h1]
  · exact fun hn => send_not_transmit hn

/-- C10 witness: sending while connected on an open socket appends the
message; sending while disconnected is a silent no-op — evaluated on
concrete states. -/
theorem C10_witness :
    (send initState Msg.ping).outbox = initState.outbox ++ [Msg.ping] ∧
    send { initState with isConnected := false } Msg.ping =
      { initState with isConnected := false } :=
  ⟨(C10_send_iff initState Msg.ping).1.mpr ⟨rfl, rfl⟩,
   (C10_send_iff { initState with isConnected := false } Msg.ping).2
     (by simp)⟩

end MarketBot
